import Mathlib

/-!
Verification development for the thalyx backend WebSocket core
(`backend/src/services/websocket_service.rs` and `backend/src/models/websocket.rs`).

The Rust code is shallowly embedded: the shared service state (connection
registry `HashMap`, the `AtomicUsize` live-connection counter, the tokio
broadcast channel's receiver count, and the `WsConfig`) becomes an explicit
`ServiceState` record, and each service method becomes a state-passing
function returning the new state together with its `Result`.

External-crate behaviour that the repository relies on is modelled
explicitly and conservatively:
* the tokio broadcast sender (`send` fails exactly when there are zero
  receiver handles, otherwise returns the receiver count);
* the uuid crate (128-bit values; `Uuid::parse_str` accepting the
  hyphenated 8-4-4-4-12 and simple 32-hex-digit forms, case-insensitive;
  the crate additionally accepts urn/braced forms, which no claim needs);
* chrono timestamps (nanosecond-precision instants; their serde string
  form is modelled as an injective decimal encoding of the instant with
  an exact parser, preserving the round-trip contract of chrono's
  RFC 3339 encoding without reproducing calendar formatting);
* serde_json values (modelled without floating-point numbers, which a
  shallow embedding cannot treat faithfully).
-/

-- ═══════════════════════════════════════════════════════════════════
-- JSON value model (serde_json::Value, floats omitted)
-- ═══════════════════════════════════════════════════════════════════

/-- Model of `serde_json::Value`. Numbers are modelled as integers;
floating-point numbers are outside the scope of the embedding. Objects are
key-value lists in serialization order. -/
inductive Json where
  | null : Json
  | bool (b : Bool) : Json
  | num (n : Int) : Json
  | str (s : String) : Json
  | arr (items : List Json) : Json
  | obj (fields : List (String × Json)) : Json

/-- Lookup of the first field with the given key in an object field list,
modelling key-based access as done by serde's derived deserializers. -/
def lookupField : List (String × Json) → String → Option Json
  | [], _ => none
  | (k, v) :: rest, key => if k = key then some v else lookupField rest key

/-- Field access on a `Json` value; `none` on non-objects. -/
def Json.getField : Json → String → Option Json
  | .obj fields, key => lookupField fields key
  | _, _ => none

-- ═══════════════════════════════════════════════════════════════════
-- Digit codecs (shared by the uuid and timestamp wire-form models)
-- ═══════════════════════════════════════════════════════════════════

/-- Character for a digit value below 16 (lowercase, as emitted by the
uuid crate's hyphenated form and by decimal formatting). -/
def digitChar : Nat → Char
  | 0 => '0' | 1 => '1' | 2 => '2' | 3 => '3' | 4 => '4'
  | 5 => '5' | 6 => '6' | 7 => '7' | 8 => '8' | 9 => '9'
  | 10 => 'a' | 11 => 'b' | 12 => 'c' | 13 => 'd' | 14 => 'e' | 15 => 'f'
  | _ => '0'

/-- Value of a hexadecimal digit character, accepting both cases. -/
def digitVal : Char → Option Nat := fun c =>
  if c = '0' then some 0 else if c = '1' then some 1
  else if c = '2' then some 2 else if c = '3' then some 3
  else if c = '4' then some 4 else if c = '5' then some 5
  else if c = '6' then some 6 else if c = '7' then some 7
  else if c = '8' then some 8 else if c = '9' then some 9
  else if c = 'a' ∨ c = 'A' then some 10 else if c = 'b' ∨ c = 'B' then some 11
  else if c = 'c' ∨ c = 'C' then some 12 else if c = 'd' ∨ c = 'D' then some 13
  else if c = 'e' ∨ c = 'E' then some 14 else if c = 'f' ∨ c = 'F' then some 15
  else none

/-- Parse a big-endian run of digit characters in base `b`; all-or-nothing. -/
def parseBaseDigits (b : Nat) : List Char → Option (List Nat)
  | [] => some []
  | c :: cs =>
    match digitVal c with
    | some d =>
      if d < b then
        match parseBaseDigits b cs with
        | some ds => some (d :: ds)
        | none => none
      else none
    | none => none

/-- Big-endian digit characters of `n` in base `b` (no padding; empty for 0). -/
def natToBaseChars (b n : Nat) : List Char :=
  (Nat.digits b n).reverse.map digitChar

/-- Little-endian digit list padded with zeros up to `width` digits. -/
def padDigits (width : Nat) (ds : List Nat) : List Nat :=
  ds ++ List.replicate (width - ds.length) 0

/-- Big-endian, zero-padded 32-hex-digit character list of `n`. -/
def natToHexChars32 (n : Nat) : List Char :=
  (padDigits 32 (Nat.digits 16 n)).reverse.map digitChar

/-- Value of a big-endian digit-character run in base `b`. -/
def baseCharsToNat (b : Nat) (cs : List Char) : Option Nat :=
  match parseBaseDigits b cs with
  | some ds => some (Nat.ofDigits b ds.reverse)
  | none => none

/-- Decimal string of an integer (minus sign plus decimal digits; `0` is the
empty digit run, which the parser reads back as zero). -/
def intToDecString (i : Int) : String :=
  if i < 0 then ⟨'-' :: natToBaseChars 10 i.natAbs⟩ else ⟨natToBaseChars 10 i.toNat⟩

/-- Parse the output format of `intToDecString`: a leading minus sign
negates the decimal digit run that follows. -/
def intFromDecString (s : String) : Option Int :=
  match s.data with
  | [] => some 0
  | c :: rest =>
    if c = '-' then
      match baseCharsToNat 10 rest with
      | some n => some (-(n : Int))
      | none => none
    else
      match baseCharsToNat 10 (c :: rest) with
      | some n => some ((n : Int))
      | none => none

-- ═══════════════════════════════════════════════════════════════════
-- Uuid / timestamps / durations
-- ═══════════════════════════════════════════════════════════════════

/-- Model of `uuid::Uuid`: a 128-bit value. -/
abbrev Uuid := Fin (2 ^ 128)

/-- Model of `models::websocket::ConnectionId` (`pub type ConnectionId = Uuid`). -/
abbrev ConnectionId := Uuid

/-- Hyphenated lowercase string form of a `Uuid` (8-4-4-4-12 hex digits),
as produced by the uuid crate's `Display` and serde serialization. -/
def uuidToHyphenated (u : Uuid) : String :=
  let cs := natToHexChars32 u.val
  ⟨cs.take 8 ++ '-' :: ((cs.drop 8).take 4 ++ '-' :: ((cs.drop 12).take 4 ++
    '-' :: ((cs.drop 16).take 4 ++ '-' :: cs.drop 20)))⟩

/-- Split a character list into the runs between '-' characters. -/
def splitDash : List Char → List (List Char)
  | [] => [[]]
  | c :: rest =>
    if c = '-' then [] :: splitDash rest
    else
      match splitDash rest with
      | g :: gs => (c :: g) :: gs
      | [] => [[c]]

/-- Interpret 32 big-endian hex digit characters as a `Uuid`. -/
def hexGroupsToUuid (cs : List Char) : Option Uuid :=
  match baseCharsToNat 16 cs with
  | some n => if h : n < 2 ^ 128 then some ⟨n, h⟩ else none
  | none => none

/-- Hyphenated uuid parser: five dash-separated hex-digit groups of lengths
8-4-4-4-12, case-insensitive (the uuid crate's `parse_hyphenated`). -/
def uuidParseHyphenated (cs : List Char) : Option Uuid :=
  match splitDash cs with
  | [g1, g2, g3, g4, g5] =>
    if g1.length = 8 ∧ g2.length = 4 ∧ g3.length = 4 ∧ g4.length = 4 ∧ g5.length = 12 then
      hexGroupsToUuid (g1 ++ g2 ++ g3 ++ g4 ++ g5)
    else none
  | _ => none

/-- The opening curly brace character, written by code point. -/
def braceOpen : Char := Char.ofNat 123

/-- The closing curly brace character, written by code point. -/
def braceClose : Char := Char.ofNat 125

/-- Model of `Uuid::parse_str` with the uuid crate's length dispatch: a
32-character simple hex form, a 36-character hyphenated form, a
38-character braced hyphenated form, and a 45-character urn-prefixed
(`urn:uuid:`) hyphenated form; any other input is rejected. Hex digits are
accepted in either case. -/
def uuidParseStr (s : String) : Option Uuid :=
  let cs := s.data
  if cs.length = 32 then hexGroupsToUuid cs
  else if cs.length = 36 then uuidParseHyphenated cs
  else if cs.length = 38 then
    match cs with
    | c :: rest =>
      if c = braceOpen ∧ rest.getLast? = some braceClose then
        uuidParseHyphenated rest.dropLast
      else none
    | [] => none
  else if cs.length = 45 then
    match cs with
    | 'u' :: 'r' :: 'n' :: ':' :: 'u' :: 'u' :: 'i' :: 'd' :: ':' :: rest =>
      uuidParseHyphenated rest
    | _ => none
  else none

/-- Model of `chrono::DateTime<chrono::Utc>`: a nanosecond-precision instant
(signed nanoseconds since the Unix epoch). -/
structure DateTime where
  nanos : Int
deriving DecidableEq, Repr

/-- Model of `std::time::Duration`: a non-negative span in nanoseconds. -/
structure Duration where
  nanos : Nat
deriving DecidableEq, Repr

-- ═══════════════════════════════════════════════════════════════════
-- models/websocket.rs — data model
-- ═══════════════════════════════════════════════════════════════════

/-- Embedding of the `WsMessage` enum (models/websocket.rs lines 49-80).
`serde_json::Value` fields become `Json`; `Option<u16>` becomes
`Option (Fin 65536)`. -/
inductive WsMessage where
  | connectionEstablished (connection_id : ConnectionId) : WsMessage
  | ping : WsMessage
  | pong : WsMessage
  | subscribe (topics : List String) : WsMessage
  | unsubscribe (topics : List String) : WsMessage
  | navigationUpdated (schema : String) (data : Json) : WsMessage
  | schemaReloaded (schema : String) : WsMessage
  | fileChanged (path : String) (event_type : String) : WsMessage
  | dataUpdate (source : String) (data : Json) (timestamp : DateTime) : WsMessage
  | error (message : String) (code : Option (Fin 65536)) : WsMessage
  | custom (event : String) (data : Json) : WsMessage

/-- Embedding of the `ConnectionInfo` struct (models/websocket.rs lines
89-95). The `HashMap<String, String>` metadata becomes a key-value list. -/
structure ConnectionInfo where
  id : ConnectionId
  connected_at : DateTime
  last_ping : Option DateTime
  subscriptions : List String
  metadata : List (String × String)
deriving DecidableEq, Repr

/-- Embedding of `ConnectionInfo::new` (models/websocket.rs lines 99-107).
The Rust function draws a fresh v4 uuid and the current time internally;
the embedding takes both as parameters, making the nondeterminism explicit. -/
def ConnectionInfo.new (id : ConnectionId) (now : DateTime) : ConnectionInfo :=
  { id := id
    connected_at := now
    last_ping := none
    subscriptions := []
    metadata := [] }

/-- Embedding of the `SubscriptionTopic` enum (models/websocket.rs lines
118-124). -/
inductive SubscriptionTopic where
  | navigation : SubscriptionTopic
  | fileSystem : SubscriptionTopic
  | dataUpdates (source : String) : SubscriptionTopic
  | all : SubscriptionTopic
  | direct (conn_id : ConnectionId) : SubscriptionTopic
deriving DecidableEq, Repr

/-- Embedding of `impl ToString for SubscriptionTopic` (models/websocket.rs
lines 132-142). -/
def SubscriptionTopic.to_string : SubscriptionTopic → String
  | .navigation => "navigation"
  | .fileSystem => "filesystem"
  | .dataUpdates source => "data:" ++ source
  | .all => "all"
  | .direct conn_id => "direct:" ++ uuidToHyphenated conn_id

/-- Prefix test on character lists (model of `str::starts_with`). -/
def matchPre : List Char → List Char → Bool
  | [], _ => true
  | _ :: _, [] => false
  | p :: ps, c :: cs => if p = c then matchPre ps cs else false

/-- Model of `str::starts_with` for our purposes (ASCII prefixes). -/
def strStartsWith (s p : String) : Bool := matchPre p.data s.data

/-- Drops the first `n` characters of a string (the effect of
`str::strip_prefix` by an `n`-character ASCII prefix when it matches). -/
def strDropChars (s : String) (n : Nat) : String := ⟨s.data.drop n⟩

/-- Embedding of `impl From<&str> for SubscriptionTopic` (models/websocket.rs
lines 144-164): exact matches first, then the `data:` prefix, then the
`direct:` prefix (valid uuid required, else `All`), else `All`. -/
def topicFromString (s : String) : SubscriptionTopic :=
  if s = "navigation" then .navigation
  else if s = "filesystem" then .fileSystem
  else if s = "all" then .all
  else if strStartsWith s "data:" then .dataUpdates (strDropChars s 5)
  else if strStartsWith s "direct:" then
    match uuidParseStr (strDropChars s 7) with
    | some uuid => .direct uuid
    | none => .all
  else .all

/-- Embedding of the `WsConfig` struct (models/websocket.rs lines 173-178). -/
structure WsConfig where
  ping_interval : Duration
  connection_timeout : Duration
  max_connections : Nat
  buffer_size : Option Nat
deriving DecidableEq, Repr

/-- Embedding of `impl Default for WsConfig` (models/websocket.rs lines
180-189): 30 s ping interval, 300 s timeout, 1000 max connections, 64 KiB
buffer. -/
def WsConfig.default : WsConfig :=
  { ping_interval := ⟨30 * 1000000000⟩
    connection_timeout := ⟨300 * 1000000000⟩
    max_connections := 1000
    buffer_size := some (1024 * 64) }

-- ═══════════════════════════════════════════════════════════════════
-- Serde wire form of WsMessage (`#[serde(tag = "type", content = "payload")]`)
-- ═══════════════════════════════════════════════════════════════════

/-- Serde serialization of a `Uuid` as modelled here: its hyphenated string. -/
def uuidToJson (u : Uuid) : Json := .str (uuidToHyphenated u)

/-- Serde deserialization of a `Uuid`: parse the string form. -/
def uuidFromJson : Json → Option Uuid
  | .str s => uuidParseStr s
  | _ => none

/-- Modelled from the spec: chrono's serde encoding of `DateTime<Utc>` is an
RFC 3339 string (an external crate, not part of src/). The model keeps the
contract that matters — an injective string encoding of the instant with an
exact parser — using a decimal encoding of the nanosecond value instead of
calendar formatting. -/
def dateTimeToJson (t : DateTime) : Json := .str (intToDecString t.nanos)

/-- Parser inverse of `dateTimeToJson`. -/
def dateTimeFromJson : Json → Option DateTime
  | .str s =>
    match intFromDecString s with
    | some i => some ⟨i⟩
    | none => none
  | _ => none

/-- Serde serialization of a `Vec<String>` field. -/
def strListToJson (l : List String) : Json := .arr (l.map .str)

/-- Element-wise string decoding of a JSON array (all-or-nothing). -/
def decodeStrList : List Json → Option (List String)
  | [] => some []
  | .str s :: rest =>
    match decodeStrList rest with
    | some l => some (s :: l)
    | none => none
  | _ :: _ => none

/-- Serde serialization of an `Option<u16>` field (`None` becomes null). -/
def optU16ToJson : Option (Fin 65536) → Json
  | none => .null
  | some n => .num (n.val : Int)

/-- Serde deserialization of an `Option<u16>` field: null gives `None`, an
in-range integer gives `Some`, anything else is rejected. -/
def optU16FromJson : Json → Option (Option (Fin 65536))
  | .null => some none
  | .num i =>
    if h : 0 ≤ i ∧ i < 65536 then
      some (some ⟨i.toNat, by omega⟩)
    else none
  | _ => none

/-- Adjacently tagged wrapper: `{"type": tag, "payload": payload}`. -/
def tagged (tag : String) (payload : Json) : Json :=
  .obj [("type", .str tag), ("payload", payload)]

/-- Wire form of an `WsMessage` under `#[serde(tag = "type", content =
"payload")]` (models/websocket.rs lines 49-80): unit variants carry only the
tag, struct variants carry their fields as the payload object in declaration
order. -/
def wsToJson : WsMessage → Json
  | .connectionEstablished connection_id =>
    tagged "ConnectionEstablished" (.obj [("connection_id", uuidToJson connection_id)])
  | .ping => .obj [("type", .str "Ping")]
  | .pong => .obj [("type", .str "Pong")]
  | .subscribe topics => tagged "Subscribe" (.obj [("topics", strListToJson topics)])
  | .unsubscribe topics => tagged "Unsubscribe" (.obj [("topics", strListToJson topics)])
  | .navigationUpdated schema data =>
    tagged "NavigationUpdated" (.obj [("schema", .str schema), ("data", data)])
  | .schemaReloaded schema => tagged "SchemaReloaded" (.obj [("schema", .str schema)])
  | .fileChanged path event_type =>
    tagged "FileChanged" (.obj [("path", .str path), ("event_type", .str event_type)])
  | .dataUpdate source data timestamp =>
    tagged "DataUpdate" (.obj [("source", .str source), ("data", data),
      ("timestamp", dateTimeToJson timestamp)])
  | .error message code =>
    tagged "Error" (.obj [("message", .str message), ("code", optU16ToJson code)])
  | .custom event data =>
    tagged "Custom" (.obj [("event", .str event), ("data", data)])

/-- Derived deserializer for `WsMessage`: reads the `type` tag, then decodes
the `payload` fields by key (order-independent lookup, as serde does). -/
def wsFromJson (j : Json) : Option WsMessage :=
  match j.getField "type" with
  | some (.str tag) =>
    if tag = "ConnectionEstablished" then
      match j.getField "payload" with
      | some p =>
        match p.getField "connection_id" with
        | some cj =>
          match uuidFromJson cj with
          | some u => some (.connectionEstablished u)
          | none => none
        | none => none
      | none => none
    else if tag = "Ping" then some .ping
    else if tag = "Pong" then some .pong
    else if tag = "Subscribe" then
      match j.getField "payload" with
      | some p =>
        match p.getField "topics" with
        | some (.arr items) =>
          match decodeStrList items with
          | some topics => some (.subscribe topics)
          | none => none
        | _ => none
      | none => none
    else if tag = "Unsubscribe" then
      match j.getField "payload" with
      | some p =>
        match p.getField "topics" with
        | some (.arr items) =>
          match decodeStrList items with
          | some topics => some (.unsubscribe topics)
          | none => none
        | _ => none
      | none => none
    else if tag = "NavigationUpdated" then
      match j.getField "payload" with
      | some p =>
        match p.getField "schema", p.getField "data" with
        | some (.str schema), some data => some (.navigationUpdated schema data)
        | _, _ => none
      | none => none
    else if tag = "SchemaReloaded" then
      match j.getField "payload" with
      | some p =>
        match p.getField "schema" with
        | some (.str schema) => some (.schemaReloaded schema)
        | _ => none
      | none => none
    else if tag = "FileChanged" then
      match j.getField "payload" with
      | some p =>
        match p.getField "path", p.getField "event_type" with
        | some (.str path), some (.str event_type) => some (.fileChanged path event_type)
        | _, _ => none
      | none => none
    else if tag = "DataUpdate" then
      match j.getField "payload" with
      | some p =>
        match p.getField "source", p.getField "data", p.getField "timestamp" with
        | some (.str source), some data, some tj =>
          match dateTimeFromJson tj with
          | some t => some (.dataUpdate source data t)
          | none => none
        | _, _, _ => none
      | none => none
    else if tag = "Error" then
      match j.getField "payload" with
      | some p =>
        match p.getField "message", p.getField "code" with
        | some (.str message), some cj =>
          match optU16FromJson cj with
          | some code => some (.error message code)
          | none => none
        | _, _ => none
      | none => none
    else if tag = "Custom" then
      match j.getField "payload" with
      | some p =>
        match p.getField "event", p.getField "data" with
        | some (.str event), some data => some (.custom event data)
        | _, _ => none
      | none => none
    else none
  | _ => none

-- ═══════════════════════════════════════════════════════════════════
-- services/websocket_service.rs — service state and operations
-- ═══════════════════════════════════════════════════════════════════

/-- Modelled from the spec: the `ApiError` variants used by the WebSocket
service (`crate::models::ApiError` is declared outside src/; only the
variants exercised by websocket_service.rs are modelled). -/
inductive ApiError where
  | webSocketError (msg : String) : ApiError
  | serializationError (msg : String) : ApiError
  | deserializationError (msg : String) : ApiError
deriving DecidableEq, Repr

/-- Registry lookup (`HashMap::get` / `contains_key`): first entry with the
given key. -/
def regLookup (id : ConnectionId) : List (ConnectionId × ConnectionInfo) → Option ConnectionInfo
  | [] => none
  | (k, v) :: rest => if k = id then some v else regLookup id rest

/-- Registry insert (`HashMap::insert`): replaces an existing entry for the
key, otherwise appends. -/
def regInsert (id : ConnectionId) (info : ConnectionInfo) :
    List (ConnectionId × ConnectionInfo) → List (ConnectionId × ConnectionInfo)
  | [] => [(id, info)]
  | (k, v) :: rest =>
    if k = id then (id, info) :: rest else (k, v) :: regInsert id info rest

/-- Registry removal (`HashMap::remove`): drops the entry for the key if
present. -/
def regRemove (id : ConnectionId) :
    List (ConnectionId × ConnectionInfo) → List (ConnectionId × ConnectionInfo)
  | [] => []
  | (k, v) :: rest => if k = id then rest else (k, v) :: regRemove id rest

/-- Registry in-place update (`HashMap::get_mut` followed by mutation):
applies `f` to the entry for the key if present. -/
def regUpdate (id : ConnectionId) (f : ConnectionInfo → ConnectionInfo) :
    List (ConnectionId × ConnectionInfo) → List (ConnectionId × ConnectionInfo)
  | [] => []
  | (k, v) :: rest =>
    if k = id then (k, f v) :: rest else (k, v) :: regUpdate id f rest

/-- State of a `WebSocketService` (websocket_service.rs lines 66-75): the
connection registry, the `AtomicUsize` live-connection counter, the number
of live receiver handles of the broadcast channel, and the configuration. -/
structure ServiceState where
  connections : List (ConnectionId × ConnectionInfo)
  connection_count : Nat
  receiver_count : Nat
  config : WsConfig
deriving DecidableEq, Repr

/-- Embedding of `WebSocketService::new` (websocket_service.rs lines 85-106):
empty registry, zero counter, a broadcast channel with no receivers yet. -/
def WebSocketService.new (config : WsConfig) : ServiceState :=
  { connections := []
    connection_count := 0
    receiver_count := 0
    config := config }

/-- Wrapping increment of the `usize` live-connection counter
(`fetch_add(1, ...)`): incrementing `usize::MAX` wraps around to zero. -/
def usize_add_one (n : Nat) : Nat :=
  if n = 2 ^ 64 - 1 then 0 else n + 1

/-- Wrapping decrement of the `usize` live-connection counter
(`fetch_sub(1, ...)`): decrementing zero wraps around to `usize::MAX`. -/
def usize_sub_one (n : Nat) : Nat :=
  if n = 0 then 2 ^ 64 - 1 else n - 1

/-- Model of `tokio::sync::broadcast::Sender::send`: fails exactly when
there are no receiver handles, otherwise returns the receiver count. -/
def broadcastSend (receiver_count : Nat) : Except Unit Nat :=
  if receiver_count = 0 then .error () else .ok receiver_count

/-- Embedding of the admission part of `handle_connection`
(websocket_service.rs lines 169-256): increments the counter first with
usize wrapping (`fetch_add` returns the previous value and wraps at
`usize::MAX`), rejects at the internal hard ceiling of 50 without
decrementing, rejects at `max_connections` after decrementing back,
otherwise inserts a fresh `ConnectionInfo` into the registry. The fresh uuid and the current time are parameters (the Rust code
draws them nondeterministically); the spawned per-socket task is not part of
the admission step. -/
def handle_connection (st : ServiceState) (freshId : ConnectionId) (now : DateTime) :
    ServiceState × Except ApiError Unit :=
  let current_count := st.connection_count
  let st1 : ServiceState := { st with connection_count := usize_add_one st.connection_count }
  if 50 ≤ current_count then
    (st1, .error (.webSocketError "Too many connections"))
  else if st.config.max_connections ≤ current_count then
    ({ st1 with connection_count := usize_sub_one st1.connection_count },
      .error (.webSocketError "Maximum connections reached"))
  else
    ({ st1 with connections := regInsert freshId (ConnectionInfo.new freshId now) st1.connections },
      .ok ())

/-- Embedding of `cleanup_connection` (websocket_service.rs lines 463-502):
removes the registry entry if present and decrements the live-connection
counter unconditionally (the `fetch_sub` happens whether or not the remove
found an entry). -/
def cleanup_connection (st : ServiceState) (connection_id : ConnectionId) : ServiceState :=
  { st with
    connections := regRemove connection_id st.connections
    connection_count := usize_sub_one st.connection_count }

/-- Topic strings added by one `Subscribe` request (websocket_service.rs
lines 612-619): each topic is appended unless already present. -/
def addTopics (subs : List String) (topics : List String) : List String :=
  topics.foldl (fun acc t => if t ∈ acc then acc else acc ++ [t]) subs

/-- Removal of the first occurrence of a topic string, as done by
`iter().position` followed by `remove` (websocket_service.rs lines 650-655). -/
def eraseFirst (l : List String) (t : String) : List String :=
  match l with
  | [] => []
  | x :: rest => if x = t then rest else x :: eraseFirst rest t

/-- Topic strings removed by one `Unsubscribe` request. -/
def removeTopics (subs : List String) (topics : List String) : List String :=
  topics.foldl eraseFirst subs

/-- Embedding of `handle_subscription` (websocket_service.rs lines 602-635). -/
def handle_subscription (st : ServiceState) (connection_id : ConnectionId)
    (topics : List String) : ServiceState × Except ApiError Unit :=
  match regLookup connection_id st.connections with
  | some _ =>
    let f := fun c => { c with subscriptions := addTopics c.subscriptions topics }
    ({ st with connections := regUpdate connection_id f st.connections }, .ok ())
  | none => (st, .error (.webSocketError "Connection not found"))

/-- Embedding of `handle_unsubscription` (websocket_service.rs lines
638-672). -/
def handle_unsubscription (st : ServiceState) (connection_id : ConnectionId)
    (topics : List String) : ServiceState × Except ApiError Unit :=
  match regLookup connection_id st.connections with
  | some _ =>
    let f := fun c => { c with subscriptions := removeTopics c.subscriptions topics }
    ({ st with connections := regUpdate connection_id f st.connections }, .ok ())
  | none => (st, .error (.webSocketError "Connection not found"))

/-- Embedding of `send_to_connection` (websocket_service.rs lines 688-727):
fails with "Connection not found" when the id is absent, otherwise publishes
on the `Direct` topic through the broadcast channel. -/
def send_to_connection (st : ServiceState) (connection_id : ConnectionId)
    (message : WsMessage) : ServiceState × Except ApiError Unit :=
  if (regLookup connection_id st.connections).isSome then
    match broadcastSend st.receiver_count with
    | .ok _ => (st, .ok ())
    | .error _ => (st, .error (.webSocketError "Failed to send message: channel closed"))
  else (st, .error (.webSocketError "Connection not found"))

/-- Embedding of `broadcast_to_topic` (websocket_service.rs lines 735-790):
sends the (topic, message) pair through the broadcast channel; the eligible
connection count is computed only for logging and does not affect the
result. Returns `Ok(())` on success — not the subscriber count, which is
only logged. -/
def broadcast_to_topic (st : ServiceState) (topic : SubscriptionTopic)
    (message : WsMessage) : ServiceState × Except ApiError Unit :=
  match broadcastSend st.receiver_count with
  | .ok _ => (st, .ok ())
  | .error _ => (st, .error (.webSocketError "Failed to broadcast: channel closed"))

/-- Embedding of `should_send_to_connection` (websocket_service.rs lines
808-835): a `Direct` topic matches exactly the target id; any other topic
matches when the subscription list contains "all" or the topic's canonical
string; an absent connection never matches. -/
def should_send_to_connection (st : ServiceState) (topic : SubscriptionTopic)
    (connection_id : ConnectionId) : Bool :=
  match regLookup connection_id st.connections with
  | some connection =>
    match topic with
    | .direct target_id => decide (target_id = connection_id)
    | t =>
      connection.subscriptions.contains "all" ||
        connection.subscriptions.contains t.to_string
  | none => false

/-- Staleness test of one reaper cycle (websocket_service.rs lines
1007-1011): `last_ping` if set, else `connected_at`, strictly older than the
threshold. -/
def isStale (threshold : DateTime) (info : ConnectionInfo) : Bool :=
  match info.last_ping with
  | some lp => decide (lp.nanos < threshold.nanos)
  | none => decide (info.connected_at.nanos < threshold.nanos)

/-- Timeout threshold of a reaper cycle (websocket_service.rs lines
988-989): now minus the configured connection timeout. -/
def reaper_threshold (st : ServiceState) (now : DateTime) : DateTime :=
  ⟨now.nanos - (st.config.connection_timeout.nanos : Int)⟩

/-- Embedding of one cycle of `connection_cleanup_task` (websocket_service.rs
lines 983-1057): snapshot the ids of all stale records, then run
`cleanup_connection` on each. -/
def cleanup_cycle (st : ServiceState) (now : DateTime) : ServiceState :=
  let threshold := reaper_threshold st now
  let to_remove := (st.connections.filter (fun p => isStale threshold p.2)).map (fun p => p.1)
  to_remove.foldl cleanup_connection st

-- ═══════════════════════════════════════════════════════════════════
-- Operation traces (for the registry-bound invariant)
-- ═══════════════════════════════════════════════════════════════════

/-- One externally triggered registry-mutating operation: an admission
(`handle_connection`) or a removal (`cleanup_connection`). -/
inductive Op where
  | connect (id : ConnectionId) (now : DateTime) : Op
  | cleanup (id : ConnectionId) : Op
deriving DecidableEq, Repr

/-- State transition of one operation. -/
def applyOp (st : ServiceState) : Op → ServiceState
  | .connect id now => (handle_connection st id now).1
  | .cleanup id => cleanup_connection st id

/-- Run of a trace of operations. -/
def runOps (st : ServiceState) (ops : List Op) : ServiceState :=
  ops.foldl applyOp st

/-- Holds when every `cleanup` step of the trace targets an id present in
the registry at that point (each connection is cleaned up at most once). -/
def cleanupsHitPresent : ServiceState → List Op → Prop
  | _, [] => True
  | st, op :: rest =>
    (match op with
     | .cleanup id => (regLookup id st.connections).isSome = true
     | .connect _ _ => True) ∧ cleanupsHitPresent (applyOp st op) rest

/-- Registry-bound invariant: the registry never holds more records than
`max_connections`, and the live counter dominates the registry size. -/
def sizeInv (st : ServiceState) : Prop :=
  st.connections.length ≤ st.config.max_connections ∧
    st.connections.length ≤ st.connection_count

-- ═══════════════════════════════════════════════════════════════════
-- Spec-side delivery predicates (for comparison against the code filter)
-- ═══════════════════════════════════════════════════════════════════

/-- Delivery condition exactly as the spec sentence words it: the topic is
`Direct` of the connection's id, or the subscription list contains the
literal "all", or it contains the topic's canonical string form. -/
def claimedDelivery (connection_id : ConnectionId) (subs : List String)
    (topic : SubscriptionTopic) : Prop :=
  topic = .direct connection_id ∨ "all" ∈ subs ∨ topic.to_string ∈ subs

/-- Amended delivery condition: for `Direct` topics only the id comparison
counts (subscriptions are irrelevant); for all other topics the "all" /
canonical-string membership test applies. -/
def amendedDelivery (connection_id : ConnectionId) (subs : List String)
    (topic : SubscriptionTopic) : Prop :=
  match topic with
  | .direct target => target = connection_id
  | t => "all" ∈ subs ∨ t.to_string ∈ subs

-- ═══════════════════════════════════════════════════════════════════
-- Concrete instances used by counterexamples and witnesses
-- ═══════════════════════════════════════════════════════════════════

/-- Concrete connection id 0. -/
def cidA : ConnectionId := ⟨0, by norm_num⟩

/-- Concrete connection id 1. -/
def cidB : ConnectionId := ⟨1, by norm_num⟩

/-- Concrete connection id 2. -/
def cidC : ConnectionId := ⟨2, by norm_num⟩

/-- Concrete connection id 3. -/
def cidD : ConnectionId := ⟨3, by norm_num⟩

/-- The Unix epoch as a concrete timestamp. -/
def epoch : DateTime := ⟨0⟩

/-- A connection subscribed to the literal "all". -/
def connAll : ConnectionInfo :=
  { ConnectionInfo.new cidA epoch with subscriptions := ["all"] }

/-- Registry state holding exactly `connAll` under id `cidA`. -/
def stAll : ServiceState :=
  { connections := [(cidA, connAll)]
    connection_count := 1
    receiver_count := 1
    config := WsConfig.default }

/-- Configuration with `max_connections = 2`. -/
def cfgMax2 : WsConfig := { WsConfig.default with max_connections := 2 }

/-- Fresh service under `cfgMax2`. -/
def initMax2 : ServiceState := WebSocketService.new cfgMax2

/-- Admissions and removals in which one connection is cleaned up twice
(session teardown racing the reaper), then two more are admitted. -/
def opsDoubleCleanup : List Op :=
  [.connect cidA epoch, .connect cidB epoch, .cleanup cidA, .cleanup cidA,
    .connect cidC epoch, .connect cidD epoch]

/-- Fresh service with the default configuration: no receiver handles. -/
def stNoReceivers : ServiceState := WebSocketService.new WsConfig.default

/-- Service with one broadcast receiver handle. -/
def stOneReceiver : ServiceState := { stNoReceivers with receiver_count := 1 }

/-- Consistent single-connection state (counter 1). -/
def stSingle : ServiceState :=
  { connections := [(cidA, ConnectionInfo.new cidA epoch)]
    connection_count := 1
    receiver_count := 1
    config := WsConfig.default }

/-- A time far (about 11.6 days) after the epoch, so that a connection whose
latest activity is the epoch is stale under the default 300 s timeout. -/
def lateNow : DateTime := ⟨1000000000000000⟩

/-- State whose counter sits exactly at the internal hard ceiling of 50. -/
def stAtCeiling : ServiceState :=
  { connections := []
    connection_count := 50
    receiver_count := 0
    config := WsConfig.default }

/-- State at the configured capacity (max_connections = 0, counter 0). -/
def stAtMax : ServiceState :=
  { connections := []
    connection_count := 0
    receiver_count := 0
    config := { WsConfig.default with max_connections := 0 } }

/-- State with an empty registry whose counter sits at `usize::MAX`, the
value the unconditional decrement in `cleanup_connection` produces. -/
def stAtWrap : ServiceState :=
  { connections := []
    connection_count := 2 ^ 64 - 1
    receiver_count := 0
    config := WsConfig.default }

/-- A full registry (one record, `max_connections = 1`) whose counter sits
at `usize::MAX`. -/
def stWrapFull : ServiceState :=
  { connections := [(cidA, ConnectionInfo.new cidA epoch)]
    connection_count := 2 ^ 64 - 1
    receiver_count := 0
    config := { WsConfig.default with max_connections := 1 } }

/-- Two admissions and no removal at all: the first is rejected at the hard
ceiling and wraps the counter to zero, the second is then admitted into the
already-full registry. -/
def opsWrapOverfill : List Op := [Op.connect cidB epoch, Op.connect cidC epoch]

-- ═══════════════════════════════════════════════════════════════════
-- Helper lemmas: digit codecs
-- ═══════════════════════════════════════════════════════════════════

/-- Reading back the character of a digit below 16 recovers the digit. -/
theorem digitVal_digitChar {d : Nat} (h : d < 16) : digitVal (digitChar d) = some d := by
  interval_cases d <;> rfl

/-- Digit characters are never the hyphen. -/
theorem digitChar_ne_dash (d : Nat) : digitChar d ≠ '-' := by
  unfold digitChar
  split <;> decide

/-- Parsing the character image of a digit list below the base recovers it. -/
theorem parseBaseDigits_map_digitChar {b : Nat} (hb : b ≤ 16) :
    ∀ ds : List Nat, (∀ d ∈ ds, d < b) →
      parseBaseDigits b (ds.map digitChar) = some ds := by
  intro ds
  induction ds with
  | nil => intro _; rfl
  | cons d tl ih =>
    intro h
    have hd : d < b := h d (List.mem_cons_self d tl)
    have hd16 : d < 16 := lt_of_lt_of_le hd hb
    have htl := ih (fun x hx => h x (List.mem_cons_of_mem d hx))
    simp [parseBaseDigits, digitVal_digitChar hd16, hd, htl]

/-- Zero digits contribute zero value. -/
theorem ofDigits_replicate_zero (b : Nat) : ∀ k, Nat.ofDigits b (List.replicate k 0) = 0
  | 0 => rfl
  | k + 1 => by
    simp [List.replicate_succ, Nat.ofDigits_cons, ofDigits_replicate_zero b k]

/-- Zero padding does not change the value of a digit list. -/
theorem ofDigits_padDigits (b w : Nat) (ds : List Nat) :
    Nat.ofDigits b (padDigits w ds) = Nat.ofDigits b ds := by
  unfold padDigits
  rw [Nat.ofDigits_append, ofDigits_replicate_zero]
  simp

/-- Zero padding keeps every digit below the base. -/
theorem padDigits_lt {b : Nat} (hb : 1 < b) (w : Nat) {ds : List Nat}
    (h : ∀ d ∈ ds, d < b) : ∀ d ∈ padDigits w ds, d < b := by
  intro d hd
  rcases List.mem_append.mp hd with h1 | h2
  · exact h d h1
  · have := List.eq_of_mem_replicate h2
    omega

/-- A number below `b ^ w` has at most `w` digits in base `b`. -/
theorem digits_length_le_of_lt {b n w : Nat} (hb : 1 < b) (h : n < b ^ w) :
    (Nat.digits b n).length ≤ w := by
  rcases Nat.eq_zero_or_pos n with rfl | hn
  · simp
  · have hn0 : n ≠ 0 := Nat.pos_iff_ne_zero.mp hn
    rw [Nat.digits_len b n hb hn0]
    have := (Nat.lt_pow_iff_log_lt hb hn0).mp h
    omega

/-- The padded hex character list of a 128-bit value has exactly 32 digits. -/
theorem natToHexChars32_length {n : Nat} (h : n < 2 ^ 128) :
    (natToHexChars32 n).length = 32 := by
  have h16 : n < 16 ^ 32 := by
    have : (16 : Nat) ^ 32 = 2 ^ 128 := by norm_num
    omega
  have hlen := digits_length_le_of_lt (by norm_num) h16
  unfold natToHexChars32 padDigits
  simp only [List.length_map, List.length_reverse, List.length_append,
    List.length_replicate]
  omega

/-- No character of the padded hex form is a hyphen. -/
theorem natToHexChars32_ne_dash {n : Nat} : ∀ c ∈ natToHexChars32 n, c ≠ '-' := by
  intro c hc
  unfold natToHexChars32 at hc
  rcases List.mem_map.mp hc with ⟨d, _, rfl⟩
  exact digitChar_ne_dash d

/-- Reading back the padded 32-hex-digit form of a 128-bit value. -/
theorem baseCharsToNat_natToHexChars32 {n : Nat} (h : n < 2 ^ 128) :
    baseCharsToNat 16 (natToHexChars32 n) = some n := by
  have h16 : (16 : Nat) ≤ 16 := le_refl 16
  have hdig : ∀ d ∈ (padDigits 32 (Nat.digits 16 n)).reverse, d < 16 := by
    intro d hd
    exact padDigits_lt (by norm_num) 32
      (fun x hx => Nat.digits_lt_base (by norm_num) hx) d (List.mem_reverse.mp hd)
  have hp := parseBaseDigits_map_digitChar h16
    ((padDigits 32 (Nat.digits 16 n)).reverse) hdig
  unfold baseCharsToNat natToHexChars32
  rw [hp]
  simp [List.reverse_reverse, ofDigits_padDigits, Nat.ofDigits_digits]

/-- Reading back the hex character group list of a `Uuid`. -/
theorem hexGroupsToUuid_natToHexChars32 (u : Uuid) :
    hexGroupsToUuid (natToHexChars32 u.val) = some u := by
  unfold hexGroupsToUuid
  rw [baseCharsToNat_natToHexChars32 u.isLt]
  simp [u.isLt]

/-- Splitting a hyphen-free run yields the single run. -/
theorem splitDash_no_dash : ∀ g : List Char, (∀ c ∈ g, c ≠ '-') →
    splitDash g = [g] := by
  intro g
  induction g with
  | nil => intro _; rfl
  | cons c tl ih =>
    intro h
    have hc : c ≠ '-' := h c (List.mem_cons_self c tl)
    have htl := ih (fun x hx => h x (List.mem_cons_of_mem c hx))
    simp [splitDash, hc, htl]

/-- Splitting at a hyphen after a hyphen-free run peels off the run. -/
theorem splitDash_append : ∀ g rest : List Char, (∀ c ∈ g, c ≠ '-') →
    splitDash (g ++ '-' :: rest) = g :: splitDash rest := by
  intro g
  induction g with
  | nil => intro rest _; simp [splitDash]
  | cons c tl ih =>
    intro rest h
    have hc : c ≠ '-' := h c (List.mem_cons_self c tl)
    have htl := ih rest (fun x hx => h x (List.mem_cons_of_mem c hx))
    simp [splitDash, hc, htl]

/-- Parsing the hyphenated character form of a `Uuid` recovers the value. -/
theorem uuidParseHyphenated_uuidToHyphenated (u : Uuid) :
    uuidParseHyphenated (uuidToHyphenated u).data = some u := by
  have hlen : (natToHexChars32 u.val).length = 32 := natToHexChars32_length u.isLt
  set cs := natToHexChars32 u.val with hcs
  have hnd : ∀ c ∈ cs, c ≠ '-' := fun c hc => natToHexChars32_ne_dash c hc
  have h1 : ∀ c ∈ cs.take 8, c ≠ '-' := fun c hc => hnd c (List.take_subset 8 cs hc)
  have h2 : ∀ c ∈ (cs.drop 8).take 4, c ≠ '-' :=
    fun c hc => hnd c (List.drop_subset 8 cs (List.take_subset 4 _ hc))
  have h3 : ∀ c ∈ (cs.drop 12).take 4, c ≠ '-' :=
    fun c hc => hnd c (List.drop_subset 12 cs (List.take_subset 4 _ hc))
  have h4 : ∀ c ∈ (cs.drop 16).take 4, c ≠ '-' :=
    fun c hc => hnd c (List.drop_subset 16 cs (List.take_subset 4 _ hc))
  have h5 : ∀ c ∈ cs.drop 20, c ≠ '-' := fun c hc => hnd c (List.drop_subset 20 cs hc)
  have hsplit : splitDash (cs.take 8 ++ '-' :: ((cs.drop 8).take 4 ++
      '-' :: ((cs.drop 12).take 4 ++ '-' :: ((cs.drop 16).take 4 ++
      '-' :: cs.drop 20)))) =
      [cs.take 8, (cs.drop 8).take 4, (cs.drop 12).take 4,
        (cs.drop 16).take 4, cs.drop 20] := by
    rw [splitDash_append _ _ h1, splitDash_append _ _ h2, splitDash_append _ _ h3,
      splitDash_append _ _ h4, splitDash_no_dash _ h5]
  have hlens : (cs.take 8).length = 8 ∧ ((cs.drop 8).take 4).length = 4 ∧
      ((cs.drop 12).take 4).length = 4 ∧ ((cs.drop 16).take 4).length = 4 ∧
      (cs.drop 20).length = 12 := by
    simp [List.length_take, List.length_drop, hlen]
  have hcat : cs.take 8 ++ (cs.drop 8).take 4 ++ (cs.drop 12).take 4 ++
      (cs.drop 16).take 4 ++ cs.drop 20 = cs := by
    have e4 : (cs.drop 16).take 4 ++ cs.drop 20 = cs.drop 16 := by
      have := List.take_append_drop 4 (cs.drop 16)
      rwa [List.drop_drop] at this
    have e3 : (cs.drop 12).take 4 ++ cs.drop 16 = cs.drop 12 := by
      have := List.take_append_drop 4 (cs.drop 12)
      rwa [List.drop_drop] at this
    have e2 : (cs.drop 8).take 4 ++ cs.drop 12 = cs.drop 8 := by
      have := List.take_append_drop 4 (cs.drop 8)
      rwa [List.drop_drop] at this
    have e1 : cs.take 8 ++ cs.drop 8 = cs := List.take_append_drop 8 cs
    simp only [List.append_assoc]
    rw [e4, e3, e2, e1]
  unfold uuidParseHyphenated uuidToHyphenated
  simp only []
  rw [hsplit]
  simp only []
  rw [if_pos hlens]
  rw [hcat, hcs]
  exact hexGroupsToUuid_natToHexChars32 u

/-- The hyphenated string of a `Uuid` has exactly 36 characters. -/
theorem uuidToHyphenated_length (u : Uuid) : (uuidToHyphenated u).data.length = 36 := by
  have hlen : (natToHexChars32 u.val).length = 32 := natToHexChars32_length u.isLt
  unfold uuidToHyphenated
  simp only [List.length_append, List.length_cons, List.length_take,
    List.length_drop, hlen]
  omega

/-- Parsing the hyphenated string form of a `Uuid` recovers the value. -/
theorem uuidParseStr_uuidToHyphenated (u : Uuid) :
    uuidParseStr (uuidToHyphenated u) = some u := by
  have h36 := uuidToHyphenated_length u
  unfold uuidParseStr
  simp only []
  rw [if_neg (by rw [h36]; decide), if_pos h36]
  exact uuidParseHyphenated_uuidToHyphenated u

/-- No character of an unpadded digit run is a hyphen. -/
theorem natToBaseChars_ne_dash {b n : Nat} : ∀ c ∈ natToBaseChars b n, c ≠ '-' := by
  intro c hc
  unfold natToBaseChars at hc
  rcases List.mem_map.mp hc with ⟨d, _, rfl⟩
  exact digitChar_ne_dash d

/-- Reading back the unpadded base form of a natural number. -/
theorem baseCharsToNat_natToBaseChars {b : Nat} (hb2 : 1 < b) (hb16 : b ≤ 16)
    (n : Nat) : baseCharsToNat b (natToBaseChars b n) = some n := by
  have hdig : ∀ d ∈ (Nat.digits b n).reverse, d < b :=
    fun d hd => Nat.digits_lt_base hb2 (List.mem_reverse.mp hd)
  have hp := parseBaseDigits_map_digitChar hb16 ((Nat.digits b n).reverse) hdig
  unfold baseCharsToNat natToBaseChars
  rw [hp]
  simp [List.reverse_reverse, Nat.ofDigits_digits]

/-- Round trip of the decimal integer codec. -/
theorem intFromDecString_intToDecString (i : Int) :
    intFromDecString (intToDecString i) = some i := by
  by_cases hneg : i < 0
  · have hb := @baseCharsToNat_natToBaseChars 10 (by norm_num) (by norm_num) i.natAbs
    have habs : ((i.natAbs : Int)) = -i := by omega
    unfold intToDecString intFromDecString
    rw [if_pos hneg]
    simp [hb, habs]
  · have hb := @baseCharsToNat_natToBaseChars 10 (by norm_num) (by norm_num) i.toNat
    have habs : ((i.toNat : Int)) = i := by omega
    unfold intToDecString intFromDecString
    rw [if_neg hneg]
    rcases hchars : natToBaseChars 10 i.toNat with _ | ⟨c, rest⟩
    · have hz : Nat.digits 10 i.toNat = [] := by
        unfold natToBaseChars at hchars
        rcases h : Nat.digits 10 i.toNat with _ | _
        · rfl
        · rw [h] at hchars
          simp at hchars
      have h0 : i.toNat = 0 := Nat.digits_eq_nil_iff_eq_zero.mp hz
      have hi0 : i = 0 := by omega
      simp [hi0]
    · have hcne : c ≠ '-' := by
        have hmem : c ∈ natToBaseChars 10 i.toNat := by
          rw [hchars]
          exact List.mem_cons_self c rest
        exact natToBaseChars_ne_dash c hmem
      simp only []
      rw [if_neg hcne, ← hchars, hb]
      simp [habs]

-- ═══════════════════════════════════════════════════════════════════
-- Helper lemmas: serde component round trips
-- ═══════════════════════════════════════════════════════════════════

/-- Uuid serde round trip. -/
theorem uuidFromJson_uuidToJson (u : Uuid) : uuidFromJson (uuidToJson u) = some u := by
  simp [uuidToJson, uuidFromJson, uuidParseStr_uuidToHyphenated]

/-- Timestamp serde round trip. -/
theorem dateTimeFromJson_dateTimeToJson (t : DateTime) :
    dateTimeFromJson (dateTimeToJson t) = some t := by
  simp [dateTimeToJson, dateTimeFromJson, intFromDecString_intToDecString]

/-- String list serde round trip. -/
theorem decodeStrList_map_str (l : List String) :
    decodeStrList (l.map Json.str) = some l := by
  induction l with
  | nil => rfl
  | cons s tl ih => simp [decodeStrList, ih]

/-- Optional u16 serde round trip. -/
theorem optU16FromJson_optU16ToJson (c : Option (Fin 65536)) :
    optU16FromJson (optU16ToJson c) = some c := by
  rcases c with _ | ⟨v, hv⟩
  · rfl
  · have hcond : (0 : Int) ≤ (v : Int) ∧ ((v : Int)) < 65536 := by
      constructor
      · omega
      · exact_mod_cast hv
    simp [optU16ToJson, optU16FromJson, hcond]

-- ═══════════════════════════════════════════════════════════════════
-- Helper lemmas: registry operations
-- ═══════════════════════════════════════════════════════════════════

/-- Updating a key then looking it up sees the update. -/
theorem regLookup_regUpdate (id : ConnectionId) (f : ConnectionInfo → ConnectionInfo) :
    ∀ l, regLookup id (regUpdate id f l) = (regLookup id l).map f := by
  intro l
  induction l with
  | nil => rfl
  | cons p rest ih =>
    rcases p with ⟨k, v⟩
    by_cases hk : k = id
    · simp [regUpdate, regLookup, hk]
    · simp [regUpdate, regLookup, hk, ih]

/-- Two updates of the same key compose. -/
theorem regUpdate_regUpdate (id : ConnectionId) (f g : ConnectionInfo → ConnectionInfo) :
    ∀ l, regUpdate id g (regUpdate id f l) = regUpdate id (fun v => g (f v)) l := by
  intro l
  induction l with
  | nil => rfl
  | cons p rest ih =>
    rcases p with ⟨k, v⟩
    by_cases hk : k = id
    · simp [regUpdate, hk]
    · simp [regUpdate, hk, ih]

/-- An update whose function fixes the stored record is the identity. -/
theorem regUpdate_fix (id : ConnectionId) (f : ConnectionInfo → ConnectionInfo) :
    ∀ l c, regLookup id l = some c → f c = c → regUpdate id f l = l := by
  intro l
  induction l with
  | nil => intro c h _; simp [regLookup] at h
  | cons p rest ih =>
    rcases p with ⟨k, v⟩
    intro c h hf
    by_cases hk : k = id
    · simp [regLookup, hk] at h
      simp [regUpdate, hk, h ▸ hf]
    · simp [regLookup, hk] at h
      simp [regUpdate, hk, ih c h hf]

/-- A key absent from the key list is not found. -/
theorem regLookup_none_of_not_mem (id : ConnectionId) :
    ∀ l : List (ConnectionId × ConnectionInfo),
      id ∉ l.map Prod.fst → regLookup id l = none := by
  intro l
  induction l with
  | nil => intro _; rfl
  | cons p rest ih =>
    rcases p with ⟨k, v⟩
    intro h
    simp only [List.map_cons, List.mem_cons] at h
    push_neg at h
    have hk : k ≠ id := fun he => h.1 he.symm
    simp [regLookup, hk, ih h.2]

/-- Removing a key from a duplicate-free registry makes it unfindable. -/
theorem regLookup_regRemove_self (id : ConnectionId) :
    ∀ l : List (ConnectionId × ConnectionInfo),
      (l.map Prod.fst).Nodup → regLookup id (regRemove id l) = none := by
  intro l
  induction l with
  | nil => intro _; rfl
  | cons p rest ih =>
    rcases p with ⟨k, v⟩
    intro hnd
    simp only [List.map_cons, List.nodup_cons] at hnd
    by_cases hk : k = id
    · subst hk
      simp only [regRemove, if_pos rfl]
      exact regLookup_none_of_not_mem k rest hnd.1
    · simp [regRemove, hk, regLookup, ih hnd.2]

/-- Removal never makes an absent key findable. -/
theorem regLookup_regRemove_none (id j : ConnectionId) :
    ∀ l : List (ConnectionId × ConnectionInfo),
      regLookup id l = none → regLookup id (regRemove j l) = none := by
  intro l
  induction l with
  | nil => intro _; rfl
  | cons p rest ih =>
    rcases p with ⟨k, v⟩
    intro h
    by_cases hik : k = id
    · simp [regLookup, hik] at h
    · simp only [regLookup, if_neg hik] at h
      by_cases hjk : k = j
      · simp [regRemove, hjk, h]
      · simp [regRemove, hjk, regLookup, hik, ih h]

/-- The key list of a removal result is a sublist of the original keys. -/
theorem keys_regRemove_sublist (j : ConnectionId) :
    ∀ l : List (ConnectionId × ConnectionInfo),
      ((regRemove j l).map Prod.fst).Sublist (l.map Prod.fst) := by
  intro l
  induction l with
  | nil => simp [regRemove]
  | cons p rest ih =>
    rcases p with ⟨k, v⟩
    by_cases hjk : k = j
    · simp only [regRemove, if_pos hjk, List.map_cons]
      exact List.sublist_cons_of_sublist k (List.Sublist.refl _)
    · simp only [regRemove, if_neg hjk, List.map_cons]
      exact List.Sublist.cons₂ k ih

/-- Folding removals never resurrects an absent key. -/
theorem foldl_regRemove_none (id : ConnectionId) :
    ∀ (ids : List ConnectionId) (l : List (ConnectionId × ConnectionInfo)),
      regLookup id l = none →
      regLookup id (ids.foldl (fun acc j => regRemove j acc) l) = none := by
  intro ids
  induction ids with
  | nil => intro l h; exact h
  | cons j rest ih =>
    intro l h
    exact ih (regRemove j l) (regLookup_regRemove_none id j l h)

/-- Folding removals over a list containing `id` removes `id` for good,
provided the registry keys are duplicate-free. -/
theorem foldl_regRemove_mem (id : ConnectionId) :
    ∀ (ids : List ConnectionId) (l : List (ConnectionId × ConnectionInfo)),
      id ∈ ids → (l.map Prod.fst).Nodup →
      regLookup id (ids.foldl (fun acc j => regRemove j acc) l) = none := by
  intro ids
  induction ids with
  | nil => intro l h _; simp at h
  | cons j rest ih =>
    intro l hmem hnd
    rcases List.mem_cons.mp hmem with rfl | hmem2
    · exact foldl_regRemove_none id rest (regRemove id l)
        (regLookup_regRemove_self id l hnd)
    · exact ih (regRemove j l) hmem2
        (List.Nodup.sublist (keys_regRemove_sublist j l) hnd)

/-- A successful lookup exhibits a member pair. -/
theorem regLookup_mem (id : ConnectionId) :
    ∀ (l : List (ConnectionId × ConnectionInfo)) (c : ConnectionInfo),
      regLookup id l = some c → (id, c) ∈ l := by
  intro l
  induction l with
  | nil => intro c h; simp [regLookup] at h
  | cons p rest ih =>
    rcases p with ⟨k, v⟩
    intro c h
    by_cases hk : k = id
    · subst hk
      simp [regLookup] at h
      subst h
      exact List.mem_cons_self _ _
    · simp only [regLookup, if_neg hk] at h
      exact List.mem_cons_of_mem _ (ih c h)

/-- Inserting grows the registry by at most one entry. -/
theorem regInsert_length_le (id : ConnectionId) (info : ConnectionInfo) :
    ∀ l : List (ConnectionId × ConnectionInfo),
      (regInsert id info l).length ≤ l.length + 1 := by
  intro l
  induction l with
  | nil => simp [regInsert]
  | cons p rest ih =>
    rcases p with ⟨k, v⟩
    by_cases hk : k = id
    · simp [regInsert, hk]
    · simp only [regInsert, if_neg hk, List.length_cons]
      omega

/-- Removing a present key shrinks the registry by exactly one entry. -/
theorem regRemove_length (id : ConnectionId) :
    ∀ l : List (ConnectionId × ConnectionInfo),
      (regLookup id l).isSome → (regRemove id l).length + 1 = l.length := by
  intro l
  induction l with
  | nil => intro h; simp [regLookup] at h
  | cons p rest ih =>
    rcases p with ⟨k, v⟩
    intro h
    by_cases hk : k = id
    · simp [regRemove, hk]
    · simp only [regLookup, if_neg hk] at h
      have := ih h
      simp only [regRemove, if_neg hk, List.length_cons]
      omega

/-- The registry contents after a fold of cleanups is a fold of removals. -/
theorem foldl_cleanup_connections :
    ∀ (ids : List ConnectionId) (st : ServiceState),
      (ids.foldl cleanup_connection st).connections =
        ids.foldl (fun acc j => regRemove j acc) st.connections := by
  intro ids
  induction ids with
  | nil => intro st; rfl
  | cons j rest ih =>
    intro st
    exact ih (cleanup_connection st j)

-- ═══════════════════════════════════════════════════════════════════
-- Helper lemmas: subscription list operations
-- ═══════════════════════════════════════════════════════════════════

/-- One-topic subscription request: append when absent, no-op when present. -/
theorem addTopics_single (subs : List String) (t : String) :
    addTopics subs [t] = if t ∈ subs then subs else subs ++ [t] := rfl

/-- One-topic unsubscription request removes the first occurrence. -/
theorem removeTopics_single (subs : List String) (t : String) :
    removeTopics subs [t] = eraseFirst subs t := rfl

/-- Erasing a freshly appended topic restores the original list. -/
theorem eraseFirst_append_self : ∀ (l : List String) (t : String), t ∉ l →
    eraseFirst (l ++ [t]) t = l := by
  intro l
  induction l with
  | nil => intro t _; simp [eraseFirst]
  | cons x rest ih =>
    intro t h
    simp only [List.mem_cons] at h
    push_neg at h
    have hx : x ≠ t := fun he => h.1 he.symm
    simp [eraseFirst, hx, ih t h.2]

-- ═══════════════════════════════════════════════════════════════════
-- Helper lemmas: admission / cleanup invariants
-- ═══════════════════════════════════════════════════════════════════

/-- Decrementing a strictly positive counter does not wrap. -/
theorem usize_sub_one_succ (n : Nat) : usize_sub_one (n + 1) = n := by
  simp [usize_sub_one]

/-- Without counter wrap, one admission step preserves the registry-bound
invariant. -/
theorem sizeInv_handle_connection (st : ServiceState) (id : ConnectionId)
    (now : DateTime) (hlt : st.connection_count < 2 ^ 64 - 1) (h : sizeInv st) :
    sizeInv (handle_connection st id now).1 := by
  rcases h with ⟨h1, h2⟩
  have hadd : usize_add_one st.connection_count = st.connection_count + 1 := by
    unfold usize_add_one
    rw [if_neg (by omega)]
  unfold handle_connection
  by_cases hcap : 50 ≤ st.connection_count
  · simp only [if_pos hcap]
    refine ⟨h1, ?_⟩
    show st.connections.length ≤ usize_add_one st.connection_count
    rw [hadd]
    omega
  · by_cases hmax : st.config.max_connections ≤ st.connection_count
    · simp only [if_neg hcap, if_pos hmax]
      refine ⟨h1, ?_⟩
      show st.connections.length ≤ usize_sub_one (usize_add_one st.connection_count)
      rw [hadd, usize_sub_one_succ]
      exact h2
    · simp only [if_neg hcap, if_neg hmax]
      have hins := regInsert_length_le id (ConnectionInfo.new id now) st.connections
      refine ⟨?_, ?_⟩
      · show (regInsert id (ConnectionInfo.new id now) st.connections).length ≤
          st.config.max_connections
        omega
      · show (regInsert id (ConnectionInfo.new id now) st.connections).length ≤
          usize_add_one st.connection_count
        rw [hadd]
        omega

/-- Without counter wrap, one admission raises the counter by at most one. -/
theorem handle_connection_count_le (st : ServiceState) (id : ConnectionId)
    (now : DateTime) (hlt : st.connection_count < 2 ^ 64 - 1) :
    (handle_connection st id now).1.connection_count ≤ st.connection_count + 1 := by
  have hadd : usize_add_one st.connection_count = st.connection_count + 1 := by
    unfold usize_add_one
    rw [if_neg (by omega)]
  unfold handle_connection
  by_cases hcap : 50 ≤ st.connection_count
  · simp only [if_pos hcap]
    show usize_add_one st.connection_count ≤ st.connection_count + 1
    rw [hadd]
  · by_cases hmax : st.config.max_connections ≤ st.connection_count
    · simp only [if_neg hcap, if_pos hmax]
      show usize_sub_one (usize_add_one st.connection_count) ≤ st.connection_count + 1
      rw [hadd, usize_sub_one_succ]
      omega
    · simp only [if_neg hcap, if_neg hmax]
      show usize_add_one st.connection_count ≤ st.connection_count + 1
      rw [hadd]

/-- One cleanup of a present id preserves the registry-bound invariant. -/
theorem sizeInv_cleanup_present (st : ServiceState) (id : ConnectionId)
    (hp : (regLookup id st.connections).isSome = true) (h : sizeInv st) :
    sizeInv (cleanup_connection st id) := by
  rcases h with ⟨h1, h2⟩
  have hl := regRemove_length id st.connections hp
  unfold cleanup_connection sizeInv
  have hne : st.connection_count ≠ 0 := by omega
  simp only [usize_sub_one, if_neg hne]
  exact ⟨by omega, by omega⟩

/-- Cleanup of a present id lowers the counter by exactly one when the
invariant holds. -/
theorem cleanup_present_count (st : ServiceState) (id : ConnectionId)
    (hp : (regLookup id st.connections).isSome = true) (h : sizeInv st) :
    (cleanup_connection st id).connection_count + 1 = st.connection_count := by
  rcases h with ⟨h1, h2⟩
  have hl := regRemove_length id st.connections hp
  have hne : st.connection_count ≠ 0 := by omega
  show usize_sub_one st.connection_count + 1 = st.connection_count
  unfold usize_sub_one
  rw [if_neg hne]
  omega

/-- Any trace whose cleanups only target present ids, and which is short
enough that the counter cannot wrap past `usize::MAX` during the run,
preserves the registry-bound invariant. -/
theorem sizeInv_runOps : ∀ (ops : List Op) (st : ServiceState),
    sizeInv st → cleanupsHitPresent st ops →
    st.connection_count + ops.length < 2 ^ 64 →
    sizeInv (runOps st ops) := by
  intro ops
  induction ops with
  | nil => intro st h _ _; exact h
  | cons op rest ih =>
    intro st h hc hbud
    simp only [cleanupsHitPresent] at hc
    rcases hc with ⟨hch, hcr⟩
    simp only [List.length_cons] at hbud
    cases op with
    | connect id now =>
      have hlt : st.connection_count < 2 ^ 64 - 1 := by omega
      have hstep := sizeInv_handle_connection st id now hlt h
      have hcnt := handle_connection_count_le st id now hlt
      refine ih (applyOp st (Op.connect id now)) hstep hcr ?_
      show (handle_connection st id now).1.connection_count + rest.length < 2 ^ 64
      omega
    | cleanup id =>
      have hstep := sizeInv_cleanup_present st id hch h
      have hcnt := cleanup_present_count st id hch h
      refine ih (applyOp st (Op.cleanup id)) hstep hcr ?_
      show (cleanup_connection st id).connection_count + rest.length < 2 ^ 64
      omega

-- ═══════════════════════════════════════════════════════════════════
-- Claim theorems
-- ═══════════════════════════════════════════════════════════════════

/-- Claim C2 (amended): a fresh service satisfies the registry bound; every
trace of admissions and removals in which each removal targets an id still
present AND which is short enough that the usize counter cannot wrap during
the run (initial counter plus trace length below `2^64`) keeps the registry
at or below `max_connections`; and an admission attempted with the live
counter at or above `max_connections` (or at or above the internal hard
ceiling) returns a capacity error and leaves the registry untouched. Both
restrictions are forced by the code: `cleanup_connection` decrements the
counter even when the id is absent, so a duplicated removal lets later
admissions overfill the registry, and hard-ceiling rejections leak +1 each
until the counter wraps past `usize::MAX`, after which admissions resume
into a full registry with no removal at all. -/
theorem claim_C2_registry_bound :
    (∀ cfg, sizeInv (WebSocketService.new cfg)) ∧
    (∀ st ops, sizeInv st → cleanupsHitPresent st ops →
      st.connection_count + ops.length < 2 ^ 64 →
      sizeInv (runOps st ops)) ∧
    (∀ st id now,
      st.config.max_connections ≤ st.connection_count ∨ 50 ≤ st.connection_count →
      ((handle_connection st id now).2 = .error (.webSocketError "Too many connections") ∨
        (handle_connection st id now).2 =
          .error (.webSocketError "Maximum connections reached")) ∧
      (handle_connection st id now).1.connections = st.connections) := by
  refine ⟨?_, fun st ops => sizeInv_runOps ops st, ?_⟩
  · intro cfg
    exact ⟨by simp [WebSocketService.new], by simp [WebSocketService.new]⟩
  · intro st id now hcap
    unfold handle_connection
    by_cases h50 : 50 ≤ st.connection_count
    · simp [h50]
    · have hmax : st.config.max_connections ≤ st.connection_count := by
        rcases hcap with h | h
        · exact h
        · omega
      simp [h50, hmax]

/-- Claim C2 witness: a concrete good trace stays within the bound, and a
concrete at-ceiling admission leaves the registry unchanged. -/
theorem claim_C2_registry_bound_witness :
    sizeInv (runOps initMax2 [Op.connect cidA epoch, Op.cleanup cidA]) ∧
    (handle_connection stAtCeiling cidA epoch).1.connections = stAtCeiling.connections :=
  ⟨claim_C2_registry_bound.2.1 initMax2 [Op.connect cidA epoch, Op.cleanup cidA]
      (claim_C2_registry_bound.1 cfgMax2) ⟨trivial, by decide, trivial⟩ (by decide),
    (claim_C2_registry_bound.2.2 stAtCeiling cidA epoch (Or.inr (by decide))).2⟩

/-- Claim C2 counterexample, two failure modes. First: with
`max_connections = 2`, admitting two connections, cleaning one of them up
twice (the session teardown racing the reaper), and admitting two more
leaves three records in the registry. Second: from a full registry
(`max_connections = 1`, one record) whose counter sits at `usize::MAX`,
two admissions and no removal at all leave two records — the first
admission is rejected at the hard ceiling but wraps the counter to zero,
re-enabling the second. -/
theorem claim_C2_registry_bound_counterexample :
    ((runOps initMax2 opsDoubleCleanup).config.max_connections = 2 ∧
      (runOps initMax2 opsDoubleCleanup).connections.length = 3) ∧
    ((runOps stWrapFull opsWrapOverfill).config.max_connections = 1 ∧
      (runOps stWrapFull opsWrapOverfill).connections.length = 2) :=
  ⟨⟨by decide, by decide⟩, ⟨by decide, by decide⟩⟩

/-- Claim C8 (code evaluated at the failing input): `cleanup_connection` is
idempotent on the registry, but it decrements the live counter on every
call: after the first cleanup of the only connection the counter is 0, and
a second cleanup of the same id decrements again, wrapping the `usize`
counter to `2^64 - 1` instead of leaving it decremented exactly once. -/
theorem claim_C8_double_decrement :
    (cleanup_connection stSingle cidA).connections = [] ∧
    (cleanup_connection stSingle cidA).connection_count = 0 ∧
    (cleanup_connection (cleanup_connection stSingle cidA) cidA).connections = [] ∧
    (cleanup_connection (cleanup_connection stSingle cidA) cidA).connection_count =
      2 ^ 64 - 1 :=
  ⟨by decide, by decide, by decide, by decide⟩

/-- Claim C9 (amended): `handle_connection` increments the live counter on
entry before any capacity check, with usize wrapping; a rejection at the
configured `max_connections` decrements it back, leaving the counter
unchanged; a rejection at the internal hard ceiling (previous counter value
at or above 50) returns the capacity error without decrementing, leaving
the counter one higher when it was below `usize::MAX` and wrapping it to
zero when it was exactly `usize::MAX`; the registry is unchanged by every
rejection. -/
theorem claim_C9_ceiling_counter_leak :
    (∀ st id now, 50 ≤ st.connection_count →
      (handle_connection st id now).2 = .error (.webSocketError "Too many connections") ∧
      (st.connection_count < 2 ^ 64 - 1 →
        (handle_connection st id now).1.connection_count = st.connection_count + 1) ∧
      (st.connection_count = 2 ^ 64 - 1 →
        (handle_connection st id now).1.connection_count = 0) ∧
      (handle_connection st id now).1.connections = st.connections) ∧
    (∀ st id now, st.connection_count < 50 →
      st.config.max_connections ≤ st.connection_count →
      (handle_connection st id now).2 =
        .error (.webSocketError "Maximum connections reached") ∧
      (handle_connection st id now).1.connection_count = st.connection_count ∧
      (handle_connection st id now).1.connections = st.connections) := by
  constructor
  · intro st id now h
    unfold handle_connection
    simp only [if_pos h]
    refine ⟨trivial, ?_, ?_, trivial⟩
    · intro hlt
      show usize_add_one st.connection_count = st.connection_count + 1
      unfold usize_add_one
      rw [if_neg (by omega)]
    · intro heq
      show usize_add_one st.connection_count = 0
      unfold usize_add_one
      rw [if_pos heq]
  · intro st id now hlt hmax
    have h50 : ¬ 50 ≤ st.connection_count := by omega
    have hadd : usize_add_one st.connection_count = st.connection_count + 1 := by
      unfold usize_add_one
      rw [if_neg (by omega)]
    unfold handle_connection
    simp only [if_neg h50, if_pos hmax]
    refine ⟨trivial, ?_, trivial⟩
    show usize_sub_one (usize_add_one st.connection_count) = st.connection_count
    rw [hadd, usize_sub_one_succ]

/-- Claim C9 witness: the +1 leak at the ceiling, the wrap to zero at
`usize::MAX`, and the clean restore at the configured limit, at concrete
states. -/
theorem claim_C9_ceiling_counter_leak_witness :
    (handle_connection stAtCeiling cidA epoch).1.connection_count = 51 ∧
    (handle_connection stAtWrap cidA epoch).1.connection_count = 0 ∧
    (handle_connection stAtMax cidA epoch).1.connection_count = 0 :=
  ⟨(claim_C9_ceiling_counter_leak.1 stAtCeiling cidA epoch (by decide)).2.1 (by decide),
    (claim_C9_ceiling_counter_leak.1 stAtWrap cidA epoch (by decide)).2.2.1 (by decide),
    (claim_C9_ceiling_counter_leak.2 stAtMax cidA epoch (by decide) (by decide)).2.1⟩

/-- Claim C9 counterexample: at a counter of exactly `usize::MAX` — the
value the unconditional decrement in `cleanup_connection` produces — a
hard-ceiling rejection wraps the counter to zero rather than leaving it one
higher, refuting the claim's unqualified "leaves the counter permanently
one higher". -/
theorem claim_C9_ceiling_counter_leak_counterexample :
    50 ≤ stAtWrap.connection_count ∧
    (handle_connection stAtWrap cidA epoch).2 =
      .error (.webSocketError "Too many connections") ∧
    (handle_connection stAtWrap cidA epoch).1.connection_count = 0 ∧
    (handle_connection stAtWrap cidA epoch).1.connection_count ≠
      stAtWrap.connection_count + 1 :=
  ⟨by decide, rfl, by decide, by decide⟩

/-- Claim C1 (amended): for a connection present in the registry the filter
returns true iff the amended delivery condition holds — for `Direct` topics
exactly the id comparison, independent of subscriptions; for every other
topic the "all" / canonical-string membership test — and for an id absent
from the registry the filter always returns false. The amendment is forced
by the code: a `Direct` topic addressed to another connection is rejected
even when the receiver subscribes to "all", so the claim's flat
three-way disjunction does not describe the filter. -/
theorem claim_C1_delivery_filter_amended :
    (∀ st topic id c, regLookup id st.connections = some c →
      (should_send_to_connection st topic id = true ↔
        amendedDelivery id c.subscriptions topic)) ∧
    (∀ st topic id, regLookup id st.connections = none →
      should_send_to_connection st topic id = false) := by
  constructor
  · intro st topic id c h
    unfold should_send_to_connection
    rw [h]
    cases topic <;>
      simp [amendedDelivery, SubscriptionTopic.to_string, List.contains,
        List.elem_iff]
  · intro st topic id h
    unfold should_send_to_connection
    rw [h]

/-- Claim C1 witness: the amended equivalence and the absent-id case at
concrete inputs. -/
theorem claim_C1_delivery_filter_amended_witness :
    (should_send_to_connection stAll SubscriptionTopic.all cidA = true ↔
      amendedDelivery cidA connAll.subscriptions SubscriptionTopic.all) ∧
    should_send_to_connection stNoReceivers SubscriptionTopic.all cidA = false :=
  ⟨claim_C1_delivery_filter_amended.1 stAll SubscriptionTopic.all cidA connAll (by decide),
    claim_C1_delivery_filter_amended.2 stNoReceivers SubscriptionTopic.all cidA rfl⟩

/-- Claim C1 counterexample: `cidA` is registered with subscription list
["all"], so the claimed three-way disjunction holds for the topic
`Direct cidB`, yet the filter returns false — `Direct` delivery ignores
subscriptions entirely, contradicting the claim's "iff". -/
theorem claim_C1_delivery_filter_counterexample :
    regLookup cidA stAll.connections = some connAll ∧
    claimedDelivery cidA connAll.subscriptions (SubscriptionTopic.direct cidB) ∧
    should_send_to_connection stAll (SubscriptionTopic.direct cidB) cidA = false :=
  ⟨by decide, Or.inr (Or.inl (by decide)), by decide⟩

/-- Claim C10: a fresh `ConnectionInfo` has an empty subscription list, no
last ping and empty metadata; consequently, while a connection's registry
record is still the fresh one, the only topics passing its delivery filter
are `Direct` messages addressed to its own id. -/
theorem claim_C10_fresh_connection :
    (∀ id now, (ConnectionInfo.new id now).subscriptions = [] ∧
      (ConnectionInfo.new id now).last_ping = none ∧
      (ConnectionInfo.new id now).metadata = []) ∧
    (∀ st id now topic,
      regLookup id st.connections = some (ConnectionInfo.new id now) →
      (should_send_to_connection st topic id = true ↔
        topic = SubscriptionTopic.direct id)) := by
  constructor
  · intro id now
    exact ⟨rfl, rfl, rfl⟩
  · intro st id now topic h
    unfold should_send_to_connection
    rw [h]
    cases topic <;>
      simp [ConnectionInfo.new, SubscriptionTopic.to_string, List.contains]

/-- Claim C10 witness: a registered fresh connection receives its own
`Direct` topic. -/
theorem claim_C10_fresh_connection_witness :
    should_send_to_connection stSingle (SubscriptionTopic.direct cidA) cidA = true :=
  (claim_C10_fresh_connection.2 stSingle cidA epoch (SubscriptionTopic.direct cidA)
    (by decide)).mpr rfl

/-- Claim C3 (amended): `broadcast_to_topic` never changes the service
state and returns unit on success, not the subscriber count (the count is
only logged); it succeeds iff at least one subscriber handle exists, and
with zero subscriber handles it returns a WebSocketError because the tokio
broadcast send fails with no receivers. -/
theorem claim_C3_publish_zero_subscribers_amended :
    ∀ st topic message,
      (broadcast_to_topic st topic message).1 = st ∧
      ((broadcast_to_topic st topic message).2 = .ok () ↔ st.receiver_count ≠ 0) ∧
      (st.receiver_count = 0 →
        (broadcast_to_topic st topic message).2 =
          .error (.webSocketError "Failed to broadcast: channel closed")) := by
  intro st topic message
  unfold broadcast_to_topic broadcastSend
  by_cases h : st.receiver_count = 0
  · simp [h]
  · simp [h]

/-- Claim C3 witness: failure with zero receiver handles and success with
one, at concrete states. -/
theorem claim_C3_publish_zero_subscribers_amended_witness :
    (broadcast_to_topic stNoReceivers SubscriptionTopic.all WsMessage.ping).2 =
      .error (.webSocketError "Failed to broadcast: channel closed") ∧
    (broadcast_to_topic stOneReceiver SubscriptionTopic.all WsMessage.ping).2 = .ok () :=
  ⟨(claim_C3_publish_zero_subscribers_amended stNoReceivers SubscriptionTopic.all
      WsMessage.ping).2.2 rfl,
    (claim_C3_publish_zero_subscribers_amended stOneReceiver SubscriptionTopic.all
      WsMessage.ping).2.1.mpr (by decide)⟩

/-- Claim C3 counterexample: publishing on a service with zero subscriber
handles is an error — `broadcast_to_topic` returns a WebSocketError, not a
successful subscriber count of zero. -/
theorem claim_C3_publish_zero_subscribers_counterexample :
    stNoReceivers.receiver_count = 0 ∧
    (broadcast_to_topic stNoReceivers SubscriptionTopic.all WsMessage.ping).2 ≠
      .ok () ∧
    (broadcast_to_topic stNoReceivers SubscriptionTopic.all WsMessage.ping).2 =
      .error (.webSocketError "Failed to broadcast: channel closed") := by
  refine ⟨rfl, ?_, rfl⟩
  intro h
  simp [broadcast_to_topic, broadcastSend, stNoReceivers, WebSocketService.new] at h

/-- Claim C4 (amended): for a live connection and a topic string `t` not in
its current subscription list, Subscribe [t] followed by Unsubscribe [t]
both succeed and restore the service state exactly. (When `t` is already
subscribed the pair instead removes `t`: subscribe is a no-op and
unsubscribe deletes the existing entry, so the final set differs from the
initial one — see the counterexample.) -/
theorem claim_C4_subscribe_unsubscribe_amended :
    ∀ st id c t, regLookup id st.connections = some c → t ∉ c.subscriptions →
      (handle_subscription st id [t]).2 = .ok () ∧
      (handle_unsubscription (handle_subscription st id [t]).1 id [t]).2 = .ok () ∧
      (handle_unsubscription (handle_subscription st id [t]).1 id [t]).1 = st := by
  intro st id c t h ht
  have hsub : handle_subscription st id [t] =
      ({ st with connections := (regUpdate id
          (fun v => { v with subscriptions := addTopics v.subscriptions [t] })
          st.connections) }, .ok ()) := by
    unfold handle_subscription
    rw [h]
  have hl1 : regLookup id (regUpdate id
      (fun v => { v with subscriptions := addTopics v.subscriptions [t] })
      st.connections) =
      some { c with subscriptions := addTopics c.subscriptions [t] } := by
    rw [regLookup_regUpdate, h]
    rfl
  have hunsub : handle_unsubscription
      ({ st with connections := (regUpdate id
          (fun v => { v with subscriptions := addTopics v.subscriptions [t] })
          st.connections) }) id [t] =
      ({ st with connections := (regUpdate id
          (fun v => { v with subscriptions := removeTopics v.subscriptions [t] })
          (regUpdate id
            (fun v => { v with subscriptions := addTopics v.subscriptions [t] })
            st.connections)) }, .ok ()) := by
    unfold handle_unsubscription
    simp only []
    rw [hl1]
  refine ⟨by rw [hsub], ?_, ?_⟩
  · rw [hsub]
    simp only []
    rw [hunsub]
  · rw [hsub]
    simp only []
    rw [hunsub]
    simp only []
    rw [regUpdate_regUpdate]
    have hfix : ({ c with subscriptions := (removeTopics
        (addTopics c.subscriptions [t]) [t]) } : ConnectionInfo) = c := by
      rw [removeTopics_single, addTopics_single, if_neg ht,
        eraseFirst_append_self _ _ ht]
    rw [regUpdate_fix id _ st.connections c h hfix]

/-- Claim C4 witness: the subscribe/unsubscribe pair on a fresh topic
restores the concrete state exactly. -/
theorem claim_C4_subscribe_unsubscribe_amended_witness :
    (handle_unsubscription (handle_subscription stAll cidA ["navigation"]).1 cidA
      ["navigation"]).1 = stAll :=
  (claim_C4_subscribe_unsubscribe_amended stAll cidA connAll "navigation" (by decide)
    (by decide)).2.2

/-- Claim C4 counterexample: `cidA` is already subscribed to "all";
Subscribe ["all"] is a no-op and Unsubscribe ["all"] removes the
pre-existing entry, so the pair does not restore the prior subscription
state, contradicting the claim's "for any prior subscription state,
including when t was already subscribed". -/
theorem claim_C4_subscribe_unsubscribe_counterexample :
    regLookup cidA stAll.connections = some connAll ∧
    connAll.subscriptions = ["all"] ∧
    (handle_unsubscription (handle_subscription stAll cidA ["all"]).1 cidA
      ["all"]).1 ≠ stAll :=
  ⟨by decide, rfl, by decide⟩

/-- Claim C6: the topic parse function maps the three literal strings to
their variants, `data:<source>` to `DataUpdates source`, and `direct:<id>`
to `Direct id` exactly when the id part parses as a syntactically valid
uuid, falling back to `All` for an invalid id; every other string parses to
`All` rather than failing. -/
theorem claim_C6_topic_parse :
    topicFromString "navigation" = SubscriptionTopic.navigation ∧
    topicFromString "filesystem" = SubscriptionTopic.fileSystem ∧
    topicFromString "all" = SubscriptionTopic.all ∧
    (∀ src : String,
      topicFromString ("data:" ++ src) = SubscriptionTopic.dataUpdates src) ∧
    (∀ s u, uuidParseStr s = some u →
      topicFromString ("direct:" ++ s) = SubscriptionTopic.direct u) ∧
    (∀ s, uuidParseStr s = none →
      topicFromString ("direct:" ++ s) = SubscriptionTopic.all) ∧
    (∀ s, s ≠ "navigation" → s ≠ "filesystem" → s ≠ "all" →
      strStartsWith s "data:" = false → strStartsWith s "direct:" = false →
      topicFromString s = SubscriptionTopic.all) := by
  have hdata : ∀ src : String,
      ("data:" ++ src).data = 'd' :: 'a' :: 't' :: 'a' :: ':' :: src.data := by
    intro src
    rw [String.data_append]
    rfl
  have hdirect : ∀ s : String,
      ("direct:" ++ s).data =
        'd' :: 'i' :: 'r' :: 'e' :: 'c' :: 't' :: ':' :: s.data := by
    intro s
    rw [String.data_append]
    rfl
  refine ⟨by decide, by decide, by decide, ?_, ?_, ?_, ?_⟩
  · intro src
    have h1 : ("data:" ++ src) ≠ "navigation" := by
      intro he
      have hd := congrArg String.data he
      rw [String.data_append] at hd
      simp at hd
    have h2 : ("data:" ++ src) ≠ "filesystem" := by
      intro he
      have hd := congrArg String.data he
      rw [String.data_append] at hd
      simp at hd
    have h3 : ("data:" ++ src) ≠ "all" := by
      intro he
      have hd := congrArg String.data he
      rw [String.data_append] at hd
      simp at hd
    have hst : strStartsWith ("data:" ++ src) "data:" = true := by
      unfold strStartsWith
      rw [hdata src]
      rfl
    have hdrop : strDropChars ("data:" ++ src) 5 = src := by
      unfold strDropChars
      rw [hdata src]
      rfl
    unfold topicFromString
    rw [if_neg h1, if_neg h2, if_neg h3, if_pos hst, hdrop]
  · intro s u hu
    have h1 : ("direct:" ++ s) ≠ "navigation" := by
      intro he
      have hd := congrArg String.data he
      rw [String.data_append] at hd
      simp at hd
    have h2 : ("direct:" ++ s) ≠ "filesystem" := by
      intro he
      have hd := congrArg String.data he
      rw [String.data_append] at hd
      simp at hd
    have h3 : ("direct:" ++ s) ≠ "all" := by
      intro he
      have hd := congrArg String.data he
      rw [String.data_append] at hd
      simp at hd
    have hnd : ¬ (strStartsWith ("direct:" ++ s) "data:" = true) := by
      unfold strStartsWith
      rw [hdirect s]
      simp [matchPre]
    have hst : strStartsWith ("direct:" ++ s) "direct:" = true := by
      unfold strStartsWith
      rw [hdirect s]
      rfl
    have hdrop : strDropChars ("direct:" ++ s) 7 = s := by
      unfold strDropChars
      rw [hdirect s]
      rfl
    unfold topicFromString
    rw [if_neg h1, if_neg h2, if_neg h3, if_neg hnd, if_pos hst, hdrop, hu]
  · intro s hu
    have h1 : ("direct:" ++ s) ≠ "navigation" := by
      intro he
      have hd := congrArg String.data he
      rw [String.data_append] at hd
      simp at hd
    have h2 : ("direct:" ++ s) ≠ "filesystem" := by
      intro he
      have hd := congrArg String.data he
      rw [String.data_append] at hd
      simp at hd
    have h3 : ("direct:" ++ s) ≠ "all" := by
      intro he
      have hd := congrArg String.data he
      rw [String.data_append] at hd
      simp at hd
    have hnd : ¬ (strStartsWith ("direct:" ++ s) "data:" = true) := by
      unfold strStartsWith
      rw [hdirect s]
      simp [matchPre]
    have hst : strStartsWith ("direct:" ++ s) "direct:" = true := by
      unfold strStartsWith
      rw [hdirect s]
      rfl
    have hdrop : strDropChars ("direct:" ++ s) 7 = s := by
      unfold strDropChars
      rw [hdirect s]
      rfl
    unfold topicFromString
    rw [if_neg h1, if_neg h2, if_neg h3, if_neg hnd, if_pos hst, hdrop, hu]
  · intro s h1 h2 h3 h4 h5
    unfold topicFromString
    rw [if_neg h1, if_neg h2, if_neg h3, if_neg (by simp [h4]),
      if_neg (by simp [h5])]

/-- Claim C6 witness: hyphenated, urn-prefixed and simple direct topic
strings parse to the `Direct` variant, and the spec's scenario string
resolves to `All`. -/
theorem claim_C6_topic_parse_witness :
    topicFromString ("direct:" ++ "00000000-0000-0000-0000-000000000000") =
      SubscriptionTopic.direct cidA ∧
    topicFromString ("direct:" ++ "urn:uuid:00000000-0000-0000-0000-000000000000") =
      SubscriptionTopic.direct cidA ∧
    topicFromString ("direct:" ++ "00000000000000000000000000000000") =
      SubscriptionTopic.direct cidA ∧
    topicFromString ("direct:" ++ "not-a-uuid") = SubscriptionTopic.all :=
  ⟨claim_C6_topic_parse.2.2.2.2.1 "00000000-0000-0000-0000-000000000000" cidA
      (by decide),
    claim_C6_topic_parse.2.2.2.2.1 "urn:uuid:00000000-0000-0000-0000-000000000000" cidA
      (by decide),
    claim_C6_topic_parse.2.2.2.2.1 "00000000000000000000000000000000" cidA
      (by decide),
    claim_C6_topic_parse.2.2.2.2.2.1 "not-a-uuid" (by decide)⟩

/-- Claim C7: every record stale at the start of a reaper cycle — latest
activity (`last_ping`, else `connected_at`) strictly older than now minus
the configured connection timeout — is removed by that cycle, and a
subsequent direct send to its id fails with the "Connection not found"
error. Registry keys are assumed duplicate-free, which holds in every
reachable registry. -/
theorem claim_C7_reaper_removes_stale :
    ∀ st now id info message,
      (st.connections.map Prod.fst).Nodup →
      regLookup id st.connections = some info →
      isStale (reaper_threshold st now) info = true →
      regLookup id (cleanup_cycle st now).connections = none ∧
      (send_to_connection (cleanup_cycle st now) id message).2 =
        .error (.webSocketError "Connection not found") := by
  intro st now id info message hnd h hstale
  have hpair : (id, info) ∈ st.connections := regLookup_mem id st.connections info h
  have hfilter : (id, info) ∈ st.connections.filter
      (fun p => isStale (reaper_threshold st now) p.2) := by
    rw [List.mem_filter]
    exact ⟨hpair, hstale⟩
  have hmem : id ∈ (st.connections.filter
      (fun p => isStale (reaper_threshold st now) p.2)).map (fun p => p.1) :=
    List.mem_map.mpr ⟨(id, info), hfilter, rfl⟩
  have hnone : regLookup id (cleanup_cycle st now).connections = none := by
    unfold cleanup_cycle
    simp only []
    rw [foldl_cleanup_connections]
    exact foldl_regRemove_mem id _ st.connections hmem hnd
  refine ⟨hnone, ?_⟩
  unfold send_to_connection
  rw [hnone]
  rfl

/-- Claim C7 witness: the single stale connection is reaped at a concrete
late time and a subsequent direct send reports it as not found. -/
theorem claim_C7_reaper_removes_stale_witness :
    regLookup cidA (cleanup_cycle stSingle lateNow).connections = none ∧
    (send_to_connection (cleanup_cycle stSingle lateNow) cidA WsMessage.ping).2 =
      .error (.webSocketError "Connection not found") :=
  claim_C7_reaper_removes_stale stSingle lateNow cidA (ConnectionInfo.new cidA epoch)
    WsMessage.ping (by decide) (by decide) (by decide)

/-- Claim C5: every `WsMessage` variant serialized to its tagged JSON wire
form and deserialized back yields the original value, for arbitrary
payloads, ids, timestamps and error codes. -/
theorem claim_C5_message_roundtrip : ∀ m : WsMessage, wsFromJson (wsToJson m) = some m := by
  intro m
  cases m <;>
    simp [wsToJson, wsFromJson, tagged, Json.getField, lookupField, strListToJson,
      uuidFromJson_uuidToJson, dateTimeFromJson_dateTimeToJson,
      decodeStrList_map_str, optU16FromJson_optU16ToJson]
